import Mathlib

/-!
# Verification of the AutoCNN layer/topology core (`cnn_structure.py`)

A shallow embedding of the layer vocabulary (`SkipLayer`, `PoolingLayer`),
the topology string codec (`get_layer_from_string`, `CNN.generate_hash`),
and the `CNN` model-builder lifecycle (`generate`, `train`, `evaluate`),
together with proofs of the specified properties.

The external deep-learning engine (TensorFlow) is abstracted: graph
construction is modelled as accumulating a list of operation descriptors
(the arguments and names the code passes to the engine), and training /
evaluation as values describing which engine entry point is invoked with
which arguments.
-/

namespace AutoCNN

/-! ## Python string primitives used by the code

`get_layer_from_string` uses `str.split('-')`, `str.isdigit()` and `int(...)`;
`generate_hash` uses `'-'.join(...)` and `str(...)` on layers (which for
non-negative integers prints the canonical decimal numeral).  We model these
over `List Char` / `String`.
-/

/-- Model of Python `str.isdigit()` for the ASCII tokens of this grammar:
true iff the string is non-empty and all characters are decimal digits. -/
def isdigit (s : String) : Bool :=
  s.data ≠ [] && s.data.all Char.isDigit

/-- Numeric value of a decimal-digit string (big-endian), as computed by
Python `int(...)` on a digit-only token. -/
def strToNat (s : String) : Nat :=
  Nat.ofDigits 10 (s.data.reverse.map (fun c => c.toNat - 48))

/-- Model of Python `int(token)` as used by the decoder: defined on
digit-only tokens, error (`ValueError`) otherwise.  (Python `int` also
accepts surrounding whitespace, an explicit sign and underscore separators;
no token of this grammar uses those forms.) -/
def pyInt (s : String) : Option Nat :=
  if isdigit s then some (strToNat s) else none

/-- Digit characters of a positive number via repeated division, most
significant digit first; `fuel` bounds the recursion depth (any
`fuel ≥ n` suffices). -/
def natToDigitsAux : Nat → Nat → List Char
  | _, 0 => []
  | 0, _ + 1 => []
  | fuel + 1, n + 1 =>
    natToDigitsAux fuel ((n + 1) / 10) ++ [Nat.digitChar ((n + 1) % 10)]

/-- Model of Python `str(n)` for a natural number: the canonical decimal
numeral. -/
def natToStr (n : Nat) : String :=
  if n = 0 then "0" else String.mk (natToDigitsAux n n)

/-- Model of Python `s.split('-')` over the character list: split at every
`'-'`, keeping empty pieces (so `"".split('-') = [""]`). `acc` holds the
reversed characters of the piece currently being read. -/
def splitChars : List Char → List Char → List (List Char)
  | [], acc => [acc.reverse]
  | c :: cs, acc =>
    if c = '-' then acc.reverse :: splitChars cs []
    else splitChars cs (c :: acc)

/-- Python `s.split('-')`. -/
def splitOnDash (s : String) : List String :=
  (splitChars s.data []).map String.mk

/-- Model of Python `'-'.join(parts)` over character lists. -/
def joinDashChars : List (List Char) → List Char
  | [] => []
  | [p] => p
  | p :: q :: ps => p ++ '-' :: joinDashChars (q :: ps)

/-- Python `'-'.join(parts)`. -/
def joinDash (parts : List String) : String :=
  String.mk (joinDashChars (parts.map String.data))

/-! ## The layer vocabulary (`SkipLayer`, `PoolingLayer`) -/

/-- Fields of `SkipLayer.__init__`: two feature widths plus the keyword
parameters with their source defaults `kernel=(3, 3)`, `stride=(1, 1)`,
`convolution='same'`. -/
structure SkipLayer where
  feature_size1 : Nat
  feature_size2 : Nat
  kernel : Nat × Nat := (3, 3)
  stride : Nat × Nat := (1, 1)
  convolution : String := "same"
deriving DecidableEq, Repr

/-- Fields of `PoolingLayer.__init__`: the pooling type string plus
`kernel=(2, 2)`, `stride=(2, 2)`. -/
structure PoolingLayer where
  pooling_type : String
  kernel : Nat × Nat := (2, 2)
  stride : Nat × Nat := (2, 2)
deriving DecidableEq, Repr

/-- The closed layer vocabulary (the `Layer` abstract base class has exactly
these two subclasses in the module). -/
inductive Layer where
  | skip (s : SkipLayer)
  | pool (p : PoolingLayer)
deriving DecidableEq, Repr

/-- Source `SkipLayer.__repr__`: `f'{feature_size1}-{feature_size2}'` (also what
`str(...)` returns, since no `__str__` is defined). -/
def SkipLayer.str (s : SkipLayer) : String :=
  natToStr s.feature_size1 ++ "-" ++ natToStr s.feature_size2

/-- Source `PoolingLayer.__repr__`: the pooling type itself. -/
def PoolingLayer.str (p : PoolingLayer) : String :=
  p.pooling_type

/-- Python `str(layer)`, dispatching on the concrete class. -/
def Layer.str : Layer → String
  | .skip s => s.str
  | .pool p => p.str

/-! ## The topology codec -/

/-- The token-consuming loop of `get_layer_from_string`: a digit token
starts a `SkipLayer` and consumes the next token as its second width
(`IndexError` if absent, `ValueError` if `int` cannot parse it); any other
token alone becomes a `PoolingLayer` of that type. -/
def layersFromTokens : List String → Option (List Layer)
  | [] => some []
  | [t] =>
    if isdigit t then
      none
    else
      some [Layer.pool { pooling_type := t }]
  | t :: t2 :: rest =>
    if isdigit t then
      match pyInt t2 with
      | none => none
      | some n2 =>
        (layersFromTokens rest).map
          (fun l => Layer.skip { feature_size1 := strToNat t, feature_size2 := n2 } :: l)
    else
      (layersFromTokens (t2 :: rest)).map
        (fun l => Layer.pool { pooling_type := t } :: l)

/-- Source `get_layer_from_string(layer_definition)`: split on `'-'` and consume
tokens left to right. -/
def get_layer_from_string (layer_definition : String) : Option (List Layer) :=
  layersFromTokens (splitOnDash layer_definition)

/-- Source `CNN.generate_hash(self)`: `'-'.join(map(str, self.layers))`. -/
def generate_hash (layers : List Layer) : String :=
  joinDash (layers.map Layer.str)

/-! ## Token-level view of encoding

Joining the per-layer reprs with `'-'` and re-splitting on `'-'` flattens a
`SkipLayer`'s repr `"a-b"` into the two tokens `"a"` and `"b"`; the
token-level view below makes that explicit.
-/

/-- Tokens a layer contributes to the split of an encoded topology string. -/
def Layer.tokens : Layer → List String
  | .skip s => [natToStr s.feature_size1, natToStr s.feature_size2]
  | .pool p => [p.pooling_type]

/-- All tokens of an encoded topology, in order. -/
def flatTokens (l : List Layer) : List String :=
  (l.map Layer.tokens).flatten

/-- Replace a layer's non-repr parameters by the constructor defaults the
decoder uses (`SkipLayer(int, int)`, `PoolingLayer(token)`). -/
def canonicalize : Layer → Layer
  | .skip s => .skip { feature_size1 := s.feature_size1, feature_size2 := s.feature_size2 }
  | .pool p => .pool { pooling_type := p.pooling_type }

/-- A layer whose repr re-tokenizes as itself: any `SkipLayer`, and a
`PoolingLayer` whose type string is not purely numeric and has no dash.
Every layer the decoder can produce satisfies this. -/
def Layer.tokenOk : Layer → Bool
  | .skip _ => true
  | .pool p => !(isdigit p.pooling_type) && !(decide ('-' ∈ p.pooling_type.data))

/-- Variant kind and repr-visible parameters of a layer: the widths of a
skip block, the pooling kind of a pool block. -/
inductive LayerShape where
  | skipShape (feature_size1 feature_size2 : Nat)
  | poolShape (pooling_type : String)
deriving DecidableEq, Repr

/-- Shape of a layer (its variant kind and canonical-token parameters). -/
def Layer.shape : Layer → LayerShape
  | .skip s => .skipShape s.feature_size1 s.feature_size2
  | .pool p => .poolShape p.pooling_type

/-! ## Graph construction model

`tensor_rep` calls hand the engine a sequence of operations; we record each
operation with the arguments and name the code passes.  A tensor handle is
the list of operations created so far, in creation order.
-/

/-- One operation handed to the engine during graph construction. -/
inductive Op where
  | input (shape : List Nat)
  | conv2d (filters : Nat) (kernel : Nat × Nat) (stride : Nat × Nat)
      (padding : String) (name : String)
  | batchNorm (name : String)
  | activation (kind : String) (name : String)
  | add (name : String)
  | maxPool2d (pool_size : Nat × Nat) (strides : Nat × Nat)
  | averagePooling2d (pool_size : Nat × Nat) (strides : Nat × Nat)
deriving DecidableEq, Repr

/-- A tensor handle: the operations applied so far, in creation order. -/
abbrev Tensor := List Op

/-- Source `SkipLayer.tensor_rep`: reads the process-wide `GROUP_NUMBER` for
its name prefix, increments it, and emits the residual block's operations
(two convolutions each followed by batch normalization, a ReLU after the
first normalization, a 1×1 projection of the input, the addition, and the
final ReLU).  The returned number is the new counter value. -/
def SkipLayer.tensor_rep (s : SkipLayer) (group_number : Nat) (inputs : Tensor) :
    Nat × Tensor :=
  let group_name := "SkipLayer_" ++ natToStr group_number
  (group_number + 1,
    inputs ++
      [Op.conv2d s.feature_size1 s.kernel s.stride s.convolution (group_name ++ "/Conv1"),
       Op.batchNorm (group_name ++ "/BatchNorm1"),
       Op.activation "relu" (group_name ++ "/ReLU1"),
       Op.conv2d s.feature_size2 s.kernel s.stride s.convolution (group_name ++ "/Conv2"),
       Op.batchNorm (group_name ++ "/BatchNorm2"),
       Op.conv2d s.feature_size2 (1, 1) s.stride "valid" (group_name ++ "/Reshape"),
       Op.add (group_name ++ "/Add"),
       Op.activation "relu" (group_name ++ "/ReLU2")])

/-- Dispatch dict `PoolingLayer.pooling_choices`: maps `"max"` and `"mean"`
to the engine pooling primitives; any other key raises `KeyError` at lookup
time. -/
def pooling_choices (pooling_type : String) : Option ((Nat × Nat) → (Nat × Nat) → Op) :=
  if pooling_type = "max" then some Op.maxPool2d
  else if pooling_type = "mean" then some Op.averagePooling2d
  else none

/-- Source `PoolingLayer.tensor_rep`: dictionary lookup then application;
`none` is the `KeyError` raised for an unrecognized pooling type. -/
def PoolingLayer.tensor_rep (p : PoolingLayer) (inputs : Tensor) : Option Tensor :=
  (pooling_choices p.pooling_type).map (fun mk => inputs ++ [mk p.kernel p.stride])

/-- Whether a layer's pooling type is a key of `pooling_choices` (skip
layers always render). -/
def Layer.recognizedKind : Layer → Bool
  | .skip _ => true
  | .pool p => (pooling_choices p.pooling_type).isSome

/-- Render one layer, threading the process-wide group counter (pooling
layers leave it untouched). -/
def Layer.tensor_rep : Layer → Nat → Tensor → Option (Nat × Tensor)
  | .skip s, g, t => some (s.tensor_rep g t)
  | .pool p, g, t => (p.tensor_rep t).map (fun t2 => (g, t2))

/-- The enumerate-fold inside `CNN.generate`, threading the tensor handle
and the group counter through every layer in order. -/
def renderLayers : List Layer → Nat → Tensor → Option (Nat × Tensor)
  | [], g, t => some (g, t)
  | a :: rest, g, t =>
    match a.tensor_rep g t with
    | none => none
    | some (g2, t2) => renderLayers rest g2 t2

/-! ## The model builder (`CNN`) -/

/-- The executable graph handed back by `tf.keras.Model` plus the
configuration bound by the engine-level `compile` step. -/
structure Model where
  ops : Tensor
  optimizer : String
  loss : String
  metrics : List String
deriving DecidableEq, Repr

/-- Source `CNN.MODEL_BASE_DIRECTORY`. -/
def MODEL_BASE_DIRECTORY : String := "./checkpoints"

/-- State of a `CNN` instance: the `CNN.__init__` fields relevant to the
verified behavior.  The two callback objects are represented by the paths
they are configured with (`checkpoint_filepath`, `log_dir`). -/
structure CNN where
  input_shape : List Nat
  output_function : Tensor → Tensor
  layers : List Layer
  optimizer : String
  loss : String
  metrics : List String
  load_if_exist : Bool
  hash : String
  model : Option Model
  checkpoint_filepath : String
  log_dir : String

/-- Source `CNN.__init__`: stores the configuration (defaulting `layers=None`
to `[]` and `optimizer=None` to Adam), computes the identity hash once,
derives the checkpoint path and the log directory from it, and starts with
`model = None`. -/
def CNN.init (input_shape : List Nat) (output_function : Tensor → Tensor)
    (layers : Option (List Layer)) (optimizer : Option String) (loss : String)
    (metrics : List String) (load_if_exist : Bool) : CNN :=
  let ls := layers.getD []
  let h := generate_hash ls
  { input_shape := input_shape
    output_function := output_function
    layers := ls
    optimizer := optimizer.getD "Adam"
    loss := loss
    metrics := metrics
    load_if_exist := load_if_exist
    hash := h
    model := none
    checkpoint_filepath := MODEL_BASE_DIRECTORY ++ "/" ++ h ++ "/" ++ h
    log_dir := "./logs/train_data/" ++ h }

/-- Source `CNN.generate`: when no model is cached, reset `GROUP_NUMBER` to
1, build the input placeholder, fold the layers left to right, apply the
output head, construct and engine-compile the model, reset `GROUP_NUMBER`
to 1 again, cache and return; when a model is cached, return it unchanged.
The incoming number is the process-wide counter's value at call time and
the returned one its value on return.  A `none` result is the `KeyError`
raised while rendering an unrecognized pooling type (in that case the real
counter keeps its mid-fold value; the counter claims below concern passes
that complete). -/
def CNN.generate (c : CNN) (group_number : Nat) : Option (CNN × Nat × Model) :=
  match c.model with
  | some m => some (c, group_number, m)
  | none =>
    match renderLayers c.layers 1 [Op.input c.input_shape] with
    | none => none
    | some (_, outputs) =>
      let m : Model :=
        { ops := c.output_function outputs
          optimizer := c.optimizer
          loss := c.loss
          metrics := c.metrics }
      some ({ c with model := some m }, 1, m)

/-- Outcome of `CNN.train`: which engine operation the call performs.
`noop` is a normal return that performs no engine call at all;
`raisedAttributeError` is the `AttributeError` raised by accessing
`load_weights` on `self.model = None`. -/
inductive TrainResult where
  | loadedWeights (filepath : String)
  | fitted (batch_size : Nat) (epochs : Nat) (validation_split : ℚ)
      (callbacks : List String)
  | noop
  | raisedAttributeError
deriving DecidableEq, Repr

/-- Source `CNN.train`: if `load_if_exist` and the checkpoint directory for
the identity hash exists, load weights from the checkpoint path; otherwise
call `fit` with `validation_split=.2` and the configured callbacks when a
model exists, and silently do nothing when `self.model is None`.
`path_exists` abstracts `os.path.exists`. -/
def CNN.train (c : CNN) (path_exists : String → Bool) (batch_size epochs : Nat) :
    TrainResult :=
  if c.load_if_exist && path_exists (MODEL_BASE_DIRECTORY ++ "/" ++ c.hash ++ "/") then
    match c.model with
    | some _ => .loadedWeights c.checkpoint_filepath
    | none => .raisedAttributeError
  else
    match c.model with
    | some _ => .fitted batch_size epochs (0.2 : ℚ) [c.checkpoint_filepath, c.log_dir]
    | none => .noop

/-- Outcome of `CNN.evaluate`. -/
inductive EvalResult where
  | engineEvaluate (batch_size : Nat)
  | raisedAttributeError
deriving DecidableEq, Repr

/-- Source `CNN.evaluate`: `self.model.evaluate(...)`; on a never-compiled
instance `self.model` is `None`, so the attribute access raises before any
engine call is made. -/
def CNN.evaluate (c : CNN) (batch_size : Nat) : EvalResult :=
  match c.model with
  | some _ => .engineEvaluate batch_size
  | none => .raisedAttributeError

/-! ## Concrete instances used by witnesses -/

/-- A two-layer topology: the first two layers of the module's demo model. -/
def exampleLayers : List Layer :=
  [Layer.skip { feature_size1 := 32, feature_size2 := 64 },
   Layer.pool { pooling_type := "max" }]

/-- A freshly constructed (uncompiled) builder over `exampleLayers`. -/
def exampleCNN : CNN :=
  CNN.init [28, 28, 1] id (some exampleLayers) none
    "sparse_categorical_crossentropy" ["accuracy"] true

/-- An arbitrary compiled graph value. -/
def exampleModel : Model :=
  { ops := [Op.input [28, 28, 1]]
    optimizer := "Adam"
    loss := "sparse_categorical_crossentropy"
    metrics := ["accuracy"] }

/-- The example builder with a cached compiled model. -/
def exampleCompiledCNN : CNN :=
  { exampleCNN with model := some exampleModel }

/-! ## Digit-string lemmas -/

theorem digitChar_isDigit {d : Nat} (h : d < 10) : (Nat.digitChar d).isDigit = true := by
  interval_cases d <;> decide

theorem digitChar_ne_dash {d : Nat} (h : d < 10) : Nat.digitChar d ≠ '-' := by
  interval_cases d <;> decide

theorem digitChar_toNat {d : Nat} (h : d < 10) : (Nat.digitChar d).toNat - 48 = d := by
  interval_cases d <;> decide

theorem natToDigitsAux_eq_digits :
    ∀ (n fuel : Nat), n ≤ fuel →
      natToDigitsAux fuel n = ((Nat.digits 10 n).map Nat.digitChar).reverse := by
  intro n
  induction n using Nat.strong_induction_on with
  | _ n ih =>
    intro fuel hf
    cases n with
    | zero => cases fuel <;> simp [natToDigitsAux]
    | succ m =>
      cases fuel with
      | zero => omega
      | succ f =>
        have hdiv : (m + 1) / 10 < m + 1 := Nat.div_lt_self (Nat.succ_pos m) (by norm_num)
        rw [natToDigitsAux, ih _ hdiv f (by omega),
          Nat.digits_def' (by norm_num : 1 < 10) (Nat.succ_pos m)]
        simp

theorem data_natToStr (n : Nat) :
    (natToStr n).data = if n = 0 then ['0'] else ((Nat.digits 10 n).map Nat.digitChar).reverse := by
  by_cases h : n = 0 <;>
    simp [natToStr, h, String.mk, natToDigitsAux_eq_digits n n le_rfl]

theorem mem_data_natToStr {n : Nat} {c : Char} (hc : c ∈ (natToStr n).data) :
    ∃ d < 10, Nat.digitChar d = c := by
  rw [data_natToStr] at hc
  by_cases h : n = 0
  · simp [h] at hc
    exact ⟨0, by norm_num, hc.symm⟩
  · simp [h, List.mem_reverse, List.mem_map] at hc
    obtain ⟨d, hd, hdc⟩ := hc
    exact ⟨d, Nat.digits_lt_base (by norm_num) hd, hdc⟩

theorem isdigit_natToStr (n : Nat) : isdigit (natToStr n) = true := by
  have hne : (natToStr n).data ≠ [] := by
    rw [data_natToStr]
    by_cases h : n = 0
    · simp [h]
    · simp [h, Nat.digits_ne_nil_iff_ne_zero]
  simp only [isdigit, Bool.and_eq_true, decide_eq_true_eq, List.all_eq_true]
  refine ⟨by simpa using hne, fun c hc => ?_⟩
  obtain ⟨d, hd, rfl⟩ := mem_data_natToStr hc
  exact digitChar_isDigit hd

theorem dash_notin_natToStr (n : Nat) : '-' ∉ (natToStr n).data := by
  intro hc
  obtain ⟨d, hd, hdc⟩ := mem_data_natToStr hc
  exact digitChar_ne_dash hd hdc

theorem strToNat_natToStr (n : Nat) : strToNat (natToStr n) = n := by
  by_cases h : n = 0
  · subst h; decide
  · simp only [strToNat, data_natToStr, h, if_false, List.reverse_reverse, List.map_map]
    have : ((Nat.digits 10 n).map ((fun c => c.toNat - 48) ∘ Nat.digitChar)) =
        (Nat.digits 10 n).map id := by
      apply List.map_congr_left
      intro d hd
      exact digitChar_toNat (Nat.digits_lt_base (by norm_num) hd)
    rw [this, List.map_id, Nat.ofDigits_digits]

theorem pyInt_natToStr (n : Nat) : pyInt (natToStr n) = some n := by
  simp [pyInt, isdigit_natToStr, strToNat_natToStr]

/-! ## Split / join lemmas -/

theorem data_mk (cs : List Char) : (String.mk cs).data = cs := rfl

theorem mk_data (s : String) : String.mk s.data = s := rfl

theorem data_append (a b : String) : (a ++ b).data = a.data ++ b.data := rfl

theorem splitChars_consume {p : List Char} (hp : '-' ∉ p) :
    ∀ (cs acc : List Char), splitChars (p ++ cs) acc = splitChars cs (p.reverse ++ acc) := by
  induction p with
  | nil => intro cs acc; simp
  | cons c p' ih =>
    intro cs acc
    have hc : c ≠ '-' := fun h => hp (h ▸ List.mem_cons_self c p')
    have hp' : '-' ∉ p' := fun h => hp (List.mem_cons_of_mem c h)
    simp only [List.cons_append, splitChars, if_neg (fun h => hc h), List.append_eq]
    rw [ih hp' cs (c :: acc)]
    simp

theorem joinDashChars_cons {p : List Char} {ps : List (List Char)} (h : ps ≠ []) :
    joinDashChars (p :: ps) = p ++ '-' :: joinDashChars ps := by
  cases ps with
  | nil => exact absurd rfl h
  | cons q qs => rfl

theorem splitChars_joinDashChars :
    ∀ (parts : List (List Char)), parts ≠ [] → (∀ p ∈ parts, '-' ∉ p) →
      splitChars (joinDashChars parts) [] = parts := by
  intro parts
  induction parts with
  | nil => intro h; exact absurd rfl h
  | cons p ps ih =>
    intro _ hnd
    have hp : '-' ∉ p := hnd p (List.mem_cons_self p ps)
    cases ps with
    | nil =>
      have : splitChars (p ++ []) [] = splitChars [] (p.reverse ++ []) :=
        splitChars_consume hp [] []
      simpa [joinDashChars, splitChars] using this
    | cons q qs =>
      rw [joinDashChars_cons (by simp), splitChars_consume hp _ []]
      have hih := ih (by simp) (fun r hr => hnd r (List.mem_cons_of_mem p hr))
      simp [splitChars, hih]

theorem joinDashChars_append {xs ys : List (List Char)} (hx : xs ≠ []) (hy : ys ≠ []) :
    joinDashChars (xs ++ ys) = joinDashChars xs ++ '-' :: joinDashChars ys := by
  induction xs with
  | nil => exact absurd rfl hx
  | cons p ps ih =>
    cases ps with
    | nil =>
      rw [List.singleton_append, joinDashChars_cons hy]
      rfl
    | cons q qs =>
      rw [List.cons_append,
        joinDashChars_cons (fun h => by simp at h),
        ih (by simp), joinDashChars_cons (by simp : (q :: qs : List (List Char)) ≠ [])]
      simp

theorem tokens_ne_nil (a : Layer) : a.tokens ≠ [] := by
  cases a <;> simp [Layer.tokens]

theorem flatTokens_ne_nil {l : List Layer} (h : l ≠ []) : flatTokens l ≠ [] := by
  cases l with
  | nil => exact absurd rfl h
  | cons a rest =>
    simp only [flatTokens, List.map_cons, List.flatten_cons]
    intro hcontra
    exact tokens_ne_nil a (List.append_eq_nil.mp hcontra).1

theorem data_generate_hash (l : List Layer) :
    (generate_hash l).data = joinDashChars ((flatTokens l).map String.data) := by
  have key : ∀ (m : List Layer),
      joinDashChars ((m.map Layer.str).map String.data) =
      joinDashChars ((flatTokens m).map String.data) := by
    intro m
    induction m with
    | nil => rfl
    | cons a rest ih =>
      cases rest with
      | nil =>
        cases a with
        | skip s =>
          simp [Layer.str, SkipLayer.str, flatTokens, Layer.tokens, joinDashChars,
            data_append]
        | pool p => rfl
      | cons b rest2 =>
        have hstr : ((b :: rest2).map Layer.str).map String.data ≠ [] := by simp
        have hflat : ((flatTokens (b :: rest2)).map String.data) ≠ [] := by
          simpa using flatTokens_ne_nil (by simp : (b :: rest2 : List Layer) ≠ [])
        rw [List.map_cons, List.map_cons, joinDashChars_cons hstr]
        have hsplit : flatTokens (a :: b :: rest2) = a.tokens ++ flatTokens (b :: rest2) := by
          simp [flatTokens]
        rw [hsplit, List.map_append,
          joinDashChars_append (by simpa using tokens_ne_nil a) hflat, ih]
        cases a with
        | skip s =>
          simp [Layer.tokens, Layer.str, SkipLayer.str, joinDashChars, data_append]
        | pool p => rfl
  exact key l

theorem splitOnDash_generate_hash {l : List Layer} (hne : l ≠ [])
    (hok : ∀ a ∈ l, a.tokenOk = true) :
    splitOnDash (generate_hash l) = flatTokens l := by
  have hnd : ∀ p ∈ (flatTokens l).map String.data, '-' ∉ p := by
    intro p hp
    simp only [List.mem_map] at hp
    obtain ⟨t, ht, rfl⟩ := hp
    simp only [flatTokens, List.mem_flatten, List.mem_map] at ht
    obtain ⟨ts, ⟨a, ha, rfl⟩, hts⟩ := ht
    cases a with
    | skip s =>
      simp only [Layer.tokens, List.mem_cons, List.not_mem_nil, or_false] at hts
      rcases hts with rfl | rfl <;> exact dash_notin_natToStr _
    | pool p =>
      simp only [Layer.tokens, List.mem_cons, List.not_mem_nil, or_false] at hts
      subst hts
      have := hok _ ha
      simp only [Layer.tokenOk, Bool.and_eq_true, Bool.not_eq_true',
        decide_eq_false_iff_not] at this
      exact this.2
  have hpne : (flatTokens l).map String.data ≠ [] := by
    simpa using flatTokens_ne_nil hne
  rw [splitOnDash, data_generate_hash, splitChars_joinDashChars _ hpne hnd,
    List.map_map, show String.mk ∘ String.data = id from rfl, List.map_id]

/-! ## Decoding the token view of an encoded topology -/

theorem layersFromTokens_flatTokens :
    ∀ (l : List Layer), (∀ a ∈ l, a.tokenOk = true) →
      layersFromTokens (flatTokens l) = some (l.map canonicalize) := by
  intro l
  induction l with
  | nil => intro _; rfl
  | cons a rest ih =>
    intro hok
    have hok' : ∀ b ∈ rest, b.tokenOk = true := fun b hb => hok b (List.mem_cons_of_mem a hb)
    cases a with
    | skip s =>
      have hsplit : flatTokens (Layer.skip s :: rest) =
          natToStr s.feature_size1 :: natToStr s.feature_size2 :: flatTokens rest := by
        simp [flatTokens, Layer.tokens]
      rw [hsplit]
      simp [layersFromTokens, isdigit_natToStr, pyInt_natToStr, strToNat_natToStr,
        ih hok', canonicalize]
    | pool p =>
      have hpd : isdigit p.pooling_type = false := by
        have := hok _ (List.mem_cons_self _ _)
        simp only [Layer.tokenOk, Bool.and_eq_true, Bool.not_eq_true'] at this
        exact this.1
      have hsplit : flatTokens (Layer.pool p :: rest) = p.pooling_type :: flatTokens rest := by
        simp [flatTokens, Layer.tokens]
      rw [hsplit]
      cases hrest : flatTokens rest with
      | nil =>
        have hrn : rest = [] := by
          by_contra hne
          exact flatTokens_ne_nil hne hrest
        subst hrn
        simp [layersFromTokens, hpd, canonicalize]
      | cons u us =>
        have hrec : layersFromTokens (flatTokens rest) = some (rest.map canonicalize) :=
          ih hok'
        rw [hrest] at hrec
        simp [layersFromTokens, hpd, hrec, canonicalize]

/-- Weak round-trip core: re-decoding the encoding of a non-empty layer list
whose pool types are non-numeric and dash-free yields the same layers with
constructor-default parameters. -/
theorem decode_encode {l : List Layer} (hne : l ≠ []) (hok : ∀ a ∈ l, a.tokenOk = true) :
    get_layer_from_string (generate_hash l) = some (l.map canonicalize) := by
  rw [get_layer_from_string, splitOnDash_generate_hash hne hok]
  exact layersFromTokens_flatTokens l hok

/-! ## The image of the decoder -/

theorem layersFromTokens_image : ∀ (ts : List String) (l : List Layer),
    layersFromTokens ts = some l →
    ∀ a ∈ l, canonicalize a = a ∧
      (∀ p, a = Layer.pool p → isdigit p.pooling_type = false ∧ p.pooling_type ∈ ts)
  | [], l, h => by
    simp only [layersFromTokens, Option.some.injEq] at h
    subst h
    intro a ha
    exact absurd ha (List.not_mem_nil a)
  | [t], l, h => by
    simp only [layersFromTokens] at h
    by_cases hd : isdigit t
    · simp [hd] at h
    · simp only [hd, Bool.false_eq_true, if_false, Option.some.injEq] at h
      subst h
      intro a ha
      simp only [List.mem_singleton] at ha
      subst ha
      refine ⟨rfl, fun p hp => ?_⟩
      cases hp
      exact ⟨Bool.of_not_eq_true hd, List.mem_singleton.mpr rfl⟩
  | t :: t2 :: rest, l, h => by
    simp only [layersFromTokens] at h
    by_cases hd : isdigit t
    · simp only [hd, if_true] at h
      cases hpy : pyInt t2 with
      | none => rw [hpy] at h; simp at h
      | some n2 =>
        rw [hpy] at h
        cases hrec : layersFromTokens rest with
        | none => rw [hrec] at h; simp at h
        | some l2 =>
          rw [hrec] at h
          simp only [Option.map_some', Option.some.injEq] at h
          subst h
          intro a ha
          rcases List.mem_cons.mp ha with rfl | ha2
          · exact ⟨rfl, fun p hp => by cases hp⟩
          · obtain ⟨hc, hpool⟩ := layersFromTokens_image rest l2 hrec a ha2
            exact ⟨hc, fun p hp =>
              ⟨(hpool p hp).1, List.mem_cons_of_mem t (List.mem_cons_of_mem t2 (hpool p hp).2)⟩⟩
    · simp only [hd, Bool.false_eq_true, if_false] at h
      cases hrec : layersFromTokens (t2 :: rest) with
      | none => rw [hrec] at h; simp at h
      | some l2 =>
        rw [hrec] at h
        simp only [Option.map_some', Option.some.injEq] at h
        subst h
        intro a ha
        rcases List.mem_cons.mp ha with rfl | ha2
        · refine ⟨rfl, fun p hp => ?_⟩
          cases hp
          exact ⟨Bool.of_not_eq_true hd, List.mem_cons_self _ _⟩
        · obtain ⟨hc, hpool⟩ := layersFromTokens_image (t2 :: rest) l2 hrec a ha2
          exact ⟨hc, fun p hp =>
            ⟨(hpool p hp).1, List.mem_cons_of_mem t (hpool p hp).2⟩⟩

theorem layersFromTokens_ne_nil : ∀ {ts : List String} {l : List Layer},
    layersFromTokens ts = some l → ts ≠ [] → l ≠ [] := by
  intro ts l h hts
  match ts, h with
  | [t], h =>
    by_cases hd : isdigit t
    · simp [layersFromTokens, hd] at h
    · simp only [layersFromTokens, hd, Bool.false_eq_true, if_false,
        Option.some.injEq] at h
      subst h
      simp
  | t :: t2 :: rest, h =>
    simp only [layersFromTokens] at h
    by_cases hd : isdigit t <;> simp only [hd, Bool.false_eq_true, if_true, if_false] at h
    · cases hpy : pyInt t2 with
      | none => rw [hpy] at h; simp at h
      | some n2 =>
        rw [hpy] at h
        cases hrec : layersFromTokens rest with
        | none => rw [hrec] at h; simp at h
        | some l2 =>
          rw [hrec] at h
          simp only [Option.map_some', Option.some.injEq] at h
          subst h
          simp
    · cases hrec : layersFromTokens (t2 :: rest) with
      | none => rw [hrec] at h; simp at h
      | some l2 =>
        rw [hrec] at h
        simp only [Option.map_some', Option.some.injEq] at h
        subst h
        simp

theorem splitChars_ne_nil : ∀ (cs acc : List Char), splitChars cs acc ≠ [] := by
  intro cs
  induction cs with
  | nil => intro acc; simp [splitChars]
  | cons c cs ih =>
    intro acc
    by_cases hc : c = '-' <;> simp [splitChars, hc, ih]

theorem mem_splitChars_no_dash :
    ∀ (cs acc p : List Char), '-' ∉ acc → p ∈ splitChars cs acc → '-' ∉ p := by
  intro cs
  induction cs with
  | nil =>
    intro acc p hacc hp
    simp only [splitChars, List.mem_singleton] at hp
    subst hp
    simpa using hacc
  | cons c cs ih =>
    intro acc p hacc hp
    by_cases hc : c = '-'
    · rw [splitChars, if_pos hc] at hp
      rcases List.mem_cons.mp hp with rfl | hp2
      · simpa using hacc
      · exact ih [] p (List.not_mem_nil _) hp2
    · rw [splitChars, if_neg hc] at hp
      refine ih (c :: acc) p ?_ hp
      intro hmem
      rcases List.mem_cons.mp hmem with h1 | h2
      · exact hc h1.symm
      · exact hacc h2

theorem mem_splitOnDash_no_dash {s t : String} (h : t ∈ splitOnDash s) :
    '-' ∉ t.data := by
  simp only [splitOnDash, List.mem_map] at h
  obtain ⟨p, hp, rfl⟩ := h
  rw [data_mk]
  exact mem_splitChars_no_dash s.data [] p (List.not_mem_nil _) hp

/-- Everything the decoder returns is a non-empty list of layers that carry
the constructor-default parameters and re-tokenize as themselves. -/
theorem decode_image {T : String} {l : List Layer} (h : get_layer_from_string T = some l) :
    l ≠ [] ∧ (∀ a ∈ l, a.tokenOk = true) ∧ l.map canonicalize = l := by
  have himg := layersFromTokens_image _ _ h
  have hsne : splitOnDash T ≠ [] := by
    simp only [splitOnDash, ne_eq, List.map_eq_nil_iff]
    exact splitChars_ne_nil T.data []
  refine ⟨layersFromTokens_ne_nil h hsne, ?_, ?_⟩
  · intro a ha
    obtain ⟨hc, hpool⟩ := himg a ha
    cases a with
    | skip s => rfl
    | pool p =>
      obtain ⟨hd, hmem⟩ := hpool p rfl
      have hnd : '-' ∉ p.pooling_type.data := mem_splitOnDash_no_dash hmem
      simp [Layer.tokenOk, hd, hnd]
  · have hcanon : ∀ a ∈ l, canonicalize a = a := fun a ha => (himg a ha).1
    calc l.map canonicalize = l.map id := List.map_congr_left hcanon
    _ = l := List.map_id l

/-- A recognized pooling kind (a key of `pooling_choices`) is a non-numeric,
dash-free token. -/
theorem tokenOk_of_recognized {a : Layer} (h : a.recognizedKind = true) :
    a.tokenOk = true := by
  cases a with
  | skip s => rfl
  | pool p =>
    have : p.pooling_type = "max" ∨ p.pooling_type = "mean" := by
      simp only [Layer.recognizedKind, pooling_choices] at h
      by_cases h1 : p.pooling_type = "max"
      · exact Or.inl h1
      · by_cases h2 : p.pooling_type = "mean"
        · exact Or.inr h2
        · simp [h1, h2] at h
    rcases this with h | h <;> simp [Layer.tokenOk, h] <;> decide

/-- Non-empty lists of repr-faithful, re-tokenizable layers are told apart
by their identity hash. -/
theorem generate_hash_injective {l1 l2 : List Layer}
    (h1 : l1 ≠ []) (h2 : l2 ≠ [])
    (hok1 : ∀ a ∈ l1, a.tokenOk = true) (hok2 : ∀ a ∈ l2, a.tokenOk = true)
    (hc1 : ∀ a ∈ l1, canonicalize a = a) (hc2 : ∀ a ∈ l2, canonicalize a = a)
    (heq : generate_hash l1 = generate_hash l2) : l1 = l2 := by
  have e1 := decode_encode h1 hok1
  have e2 := decode_encode h2 hok2
  rw [heq, e2] at e1
  have hmap : l2.map canonicalize = l1.map canonicalize := Option.some.inj e1
  calc l1 = l1.map id := (List.map_id l1).symm
  _ = l1.map canonicalize := (List.map_congr_left hc1).symm
  _ = l2.map canonicalize := hmap.symm
  _ = l2.map id := List.map_congr_left hc2
  _ = l2 := List.map_id l2

/-- Appending one extra all-digit token to the tokens of an encoded
topology makes the decoding loop fail (the dangling token consumes a
non-existent successor). -/
theorem layersFromTokens_dangling :
    ∀ (l : List Layer), (∀ a ∈ l, a.tokenOk = true) →
      ∀ t, isdigit t = true → layersFromTokens (flatTokens l ++ [t]) = none := by
  intro l
  induction l with
  | nil =>
    intro _ t ht
    simp [flatTokens, layersFromTokens, ht]
  | cons a rest ih =>
    intro hok t ht
    have hok' : ∀ b ∈ rest, b.tokenOk = true := fun b hb => hok b (List.mem_cons_of_mem a hb)
    cases a with
    | skip s =>
      have hsplit : flatTokens (Layer.skip s :: rest) ++ [t] =
          natToStr s.feature_size1 :: natToStr s.feature_size2 :: (flatTokens rest ++ [t]) := by
        simp [flatTokens, Layer.tokens]
      rw [hsplit]
      simp [layersFromTokens, isdigit_natToStr, pyInt_natToStr, ih hok' t ht]
    | pool p =>
      have hpd : isdigit p.pooling_type = false := by
        have := hok _ (List.mem_cons_self _ _)
        simp only [Layer.tokenOk, Bool.and_eq_true, Bool.not_eq_true'] at this
        exact this.1
      have hsplit : flatTokens (Layer.pool p :: rest) ++ [t] =
          p.pooling_type :: (flatTokens rest ++ [t]) := by
        simp [flatTokens, Layer.tokens]
      rw [hsplit]
      cases hrest : flatTokens rest ++ [t] with
      | nil => exact absurd hrest (by simp)
      | cons u us =>
        have hrec := ih hok' t ht
        rw [hrest] at hrec
        simp [layersFromTokens, hpd, hrec]

/-- Splitting an encoded topology with one extra `-`-separated suffix token
appended yields the topology's tokens followed by that token. -/
theorem splitOnDash_generate_hash_append {l : List Layer} {t : String} (hne : l ≠ [])
    (hok : ∀ a ∈ l, a.tokenOk = true) (htd : '-' ∉ t.data) :
    splitOnDash (generate_hash l ++ "-" ++ t) = flatTokens l ++ [t] := by
  have hdata : (generate_hash l ++ "-" ++ t).data =
      joinDashChars (((flatTokens l).map String.data) ++ [t.data]) := by
    rw [data_append, data_append, data_generate_hash]
    rw [joinDashChars_append (by simpa using flatTokens_ne_nil hne) (by simp)]
    have hdash : ("-" : String).data = ['-'] := rfl
    simp [hdash, joinDashChars, List.append_assoc]
  have hnd : ∀ p ∈ ((flatTokens l).map String.data) ++ [t.data], '-' ∉ p := by
    intro p hp
    rcases List.mem_append.mp hp with hp1 | hp2
    · simp only [List.mem_map] at hp1
      obtain ⟨u, hu, rfl⟩ := hp1
      simp only [flatTokens, List.mem_flatten, List.mem_map] at hu
      obtain ⟨ts, ⟨a, ha, rfl⟩, hts⟩ := hu
      cases a with
      | skip s =>
        simp only [Layer.tokens, List.mem_cons, List.not_mem_nil, or_false] at hts
        rcases hts with rfl | rfl <;> exact dash_notin_natToStr _
      | pool p =>
        simp only [Layer.tokens, List.mem_cons, List.not_mem_nil, or_false] at hts
        subst hts
        have := hok _ ha
        simp only [Layer.tokenOk, Bool.and_eq_true, Bool.not_eq_true',
          decide_eq_false_iff_not] at this
        exact this.2
    · simp only [List.mem_singleton] at hp2
      subst hp2
      exact htd
  rw [splitOnDash, hdata, splitChars_joinDashChars _ (by simp) hnd]
  rw [List.map_append, List.map_map, show String.mk ∘ String.data = id from rfl,
    List.map_id]
  rfl

/-- Splitting a dash-free string yields that single token. -/
theorem splitOnDash_single {t : String} (htd : '-' ∉ t.data) :
    splitOnDash t = [t] := by
  have hc := splitChars_consume htd [] []
  simp only [List.append_nil] at hc
  simp [splitOnDash, hc, splitChars, mk_data]

/-- If a pooling layer with an unrecognized type occurs anywhere in a layer
list, the rendering fold fails, whatever counter and tensor it is started
with (every layer before it either renders or itself fails). -/
theorem renderLayers_unrecognized_mem :
    ∀ (l : List Layer) (p : PoolingLayer), Layer.pool p ∈ l →
      pooling_choices p.pooling_type = none →
      ∀ (g : Nat) (tens : Tensor), renderLayers l g tens = none := by
  intro l
  induction l with
  | nil =>
    intro p hp
    exact absurd hp (List.not_mem_nil _)
  | cons a rest ih =>
    intro p hp hk g tens
    rcases List.mem_cons.mp hp with rfl | hmem
    · simp [renderLayers, Layer.tensor_rep, PoolingLayer.tensor_rep, hk]
    · cases a with
      | skip s =>
        simp [renderLayers, Layer.tensor_rep, SkipLayer.tensor_rep, ih p hmem hk]
      | pool q =>
        cases hq : pooling_choices q.pooling_type with
        | none =>
          simp [renderLayers, Layer.tensor_rep, PoolingLayer.tensor_rep, hq]
        | some mk =>
          simp [renderLayers, Layer.tensor_rep, PoolingLayer.tensor_rep, hq,
            ih p hmem hk]

/-! ## The claims -/

/-- C1: for every topology string `T` that `get_layer_from_string` accepts,
encoding the decoded layer sequence with `generate_hash` and decoding that
string again yields exactly the layer sequence obtained from `T` — in
particular the same ordered variant kinds and parameters (skip widths and
pooling kinds). -/
theorem C1_encode_decode_stable {T : String} {l : List Layer}
    (h : get_layer_from_string T = some l) :
    get_layer_from_string (generate_hash l) = some l := by
  obtain ⟨hne, hok, hcanon⟩ := decode_image h
  rw [decode_encode hne hok, hcanon]

/-- Witness for C1 at `T = "32-64-max"`. -/
theorem C1_witness :
    get_layer_from_string "32-64-max" = some exampleLayers ∧
    get_layer_from_string (generate_hash exampleLayers) = some exampleLayers := by
  have h : get_layer_from_string "32-64-max" = some exampleLayers := by decide
  exact ⟨h, C1_encode_decode_stable h⟩

/-- C2 counterexample: the claim fails at the empty topology:
`encode([]) = ""`, and `decode("")` is one pooling layer with empty type
rather than the empty sequence. -/
theorem C2_counterexample :
    generate_hash ([] : List Layer) = "" ∧
    get_layer_from_string (generate_hash ([] : List Layer)) =
      some [Layer.pool { pooling_type := "" }] ∧
    (some [Layer.pool { pooling_type := "" }]).map (List.map Layer.shape) ≠
      some (([] : List Layer).map Layer.shape) := by
  refine ⟨rfl, by decide, by decide⟩

/-- C2 (amended): for every NON-EMPTY topology whose pooling types are
recognized pooling kinds, decoding the encoding reconstructs a topology
with the same ordered sequence of variant kinds and parameters (skip
widths, pooling kinds). -/
theorem C2_decode_encode_structural {l : List Layer} (hne : l ≠ [])
    (hok : ∀ a ∈ l, a.recognizedKind = true) :
    (get_layer_from_string (generate_hash l)).map (List.map Layer.shape) =
      some (l.map Layer.shape) := by
  rw [decode_encode hne (fun a ha => tokenOk_of_recognized (hok a ha))]
  simp only [Option.map_some', Option.some.injEq, List.map_map]
  apply List.map_congr_left
  intro a _
  cases a <;> rfl

/-- Witness for C2 (amended) at the two-layer example topology. -/
theorem C2_witness :
    (get_layer_from_string (generate_hash exampleLayers)).map (List.map Layer.shape) =
      some (exampleLayers.map Layer.shape) :=
  C2_decode_encode_structural (by decide) (by decide)

/-- C3 counterexample: `decode("foo")` does not fail at decode time — it
returns one pooling layer of type `"foo"`; no vocabulary check happens
during decoding. -/
theorem C3_counterexample :
    get_layer_from_string "foo" = some [Layer.pool { pooling_type := "foo" }] := by
  decide

/-- C3 (amended): decoding a single non-numeric, unrecognized token
succeeds, producing one pooling layer of that type; the failure surfaces
only at graph-construction time — rendering that layer raises (`none`),
and so does compiling any uncompiled model containing it. -/
theorem C3_unrecognized_kind_deferred {t : String} (htd : '-' ∉ t.data)
    (hd : isdigit t = false) (hk : pooling_choices t = none) :
    get_layer_from_string t = some [Layer.pool { pooling_type := t }] ∧
    (∀ g tens, Layer.tensor_rep (Layer.pool { pooling_type := t }) g tens = none) ∧
    (∀ (c : CNN) (g : Nat), c.model = none →
      Layer.pool { pooling_type := t } ∈ c.layers → c.generate g = none) := by
  refine ⟨?_, ?_, ?_⟩
  · rw [get_layer_from_string, splitOnDash_single htd]
    simp [layersFromTokens, hd]
  · intro g tens
    simp [Layer.tensor_rep, PoolingLayer.tensor_rep, hk]
  · intro c g hm hmem
    simp [CNN.generate, hm, renderLayers_unrecognized_mem c.layers _ hmem hk]

/-- Witness for C3 (amended) at `t = "foo"`. -/
theorem C3_witness :
    get_layer_from_string "foo" ≠ none ∧
    Layer.tensor_rep (Layer.pool { pooling_type := "foo" }) 1 [] = none ∧
    ({ exampleCNN with
        layers := exampleLayers ++ [Layer.pool { pooling_type := "foo" }] }).generate 1 =
      none := by
  have h := @C3_unrecognized_kind_deferred "foo" (by decide) (by decide) rfl
  exact ⟨by rw [h.1]; exact Option.some_ne_none _, h.2.1 1 [], h.2.2 _ 1 rfl (by decide)⟩

/-- C4: a dangling integer token at the end of a topology string — bare, or
appended after a well-formed encoded topology — makes the decoder fail
(the loop consumes the digit token and finds no second width). -/
theorem C4_dangling_integer (n : Nat) :
    get_layer_from_string (natToStr n) = none ∧
    (∀ l : List Layer, l ≠ [] → (∀ a ∈ l, a.tokenOk = true) →
      get_layer_from_string (generate_hash l ++ "-" ++ natToStr n) = none) := by
  constructor
  · rw [get_layer_from_string, splitOnDash_single (dash_notin_natToStr n)]
    simp [layersFromTokens, isdigit_natToStr]
  · intro l hne hok
    rw [get_layer_from_string,
      splitOnDash_generate_hash_append hne hok (dash_notin_natToStr n),
      layersFromTokens_dangling l hok _ (isdigit_natToStr n)]

/-- Witness for C4 at `"32"` and `"32-64-max-32"`. -/
theorem C4_witness :
    get_layer_from_string "32" = none ∧
    get_layer_from_string (generate_hash exampleLayers ++ "-" ++ natToStr 32) = none := by
  have h := C4_dangling_integer 32
  refine ⟨?_, h.2 exampleLayers (by decide) (by decide)⟩
  have h1 := h.1
  rwa [(by decide : natToStr 32 = "32")] at h1

/-- C5 counterexample: two topologies containing the same two layer
specifications in a different order can share the identity hash, because a
skip layer's repr records only its widths: `SkipLayer(1, 1)` and
`SkipLayer(1, 1, kernel=(5, 5))` both print `"1-1"`. -/
theorem C5_counterexample :
    generate_hash [Layer.skip { feature_size1 := 1, feature_size2 := 1 },
        Layer.skip { feature_size1 := 1, feature_size2 := 1, kernel := (5, 5) }] =
      generate_hash [Layer.skip { feature_size1 := 1, feature_size2 := 1, kernel := (5, 5) },
        Layer.skip { feature_size1 := 1, feature_size2 := 1 }] ∧
    [Layer.skip { feature_size1 := 1, feature_size2 := 1 },
        Layer.skip { feature_size1 := 1, feature_size2 := 1, kernel := (5, 5) }] ≠
      [Layer.skip { feature_size1 := 1, feature_size2 := 1, kernel := (5, 5) },
        Layer.skip { feature_size1 := 1, feature_size2 := 1 }] ∧
    List.Perm
      [Layer.skip { feature_size1 := 1, feature_size2 := 1 },
        Layer.skip { feature_size1 := 1, feature_size2 := 1, kernel := (5, 5) }]
      [Layer.skip { feature_size1 := 1, feature_size2 := 1, kernel := (5, 5) },
        Layer.skip { feature_size1 := 1, feature_size2 := 1 }] :=
  ⟨by decide, by decide, List.Perm.swap _ _ _⟩

/-- C5 (amended): the identity hash is the dash-join of the canonical
tokens, so (a) two builder instances constructed over the same ordered
topology have identical hashes regardless of any other configuration, and
(b) for topologies of canonical-parameter layers (the decoder's vocabulary:
constructor-default kernel/stride/padding, non-numeric dash-free pooling
types) any reordering that changes the sequence changes the hash.  The
counterexample shows (b) does not extend to layers that differ only in
parameters the canonical token does not record. -/
theorem C5_hash_determined_by_topology :
    (∀ (sh1 sh2 : List Nat) (f1 f2 : Tensor → Tensor) (l : List Layer)
        (o1 o2 : Option String) (lo1 lo2 : String) (me1 me2 : List String)
        (b1 b2 : Bool),
      (CNN.init sh1 f1 (some l) o1 lo1 me1 b1).hash =
        (CNN.init sh2 f2 (some l) o2 lo2 me2 b2).hash) ∧
    (∀ l1 l2 : List Layer,
      (∀ a ∈ l1, a.tokenOk = true ∧ canonicalize a = a) →
      (∀ a ∈ l2, a.tokenOk = true ∧ canonicalize a = a) →
      l1.Perm l2 → l1 ≠ l2 → generate_hash l1 ≠ generate_hash l2) := by
  constructor
  · intro sh1 sh2 f1 f2 l o1 o2 lo1 lo2 me1 me2 b1 b2
    rfl
  · intro l1 l2 h1 h2 hperm hne heq
    have hne1 : l1 ≠ [] := by
      rintro rfl
      exact hne hperm.nil_eq
    have hne2 : l2 ≠ [] := by
      rintro rfl
      exact hne hperm.eq_nil
    exact hne (generate_hash_injective hne1 hne2
      (fun a ha => (h1 a ha).1) (fun a ha => (h2 a ha).1)
      (fun a ha => (h1 a ha).2) (fun a ha => (h2 a ha).2) heq)

/-- Witness for C5 (amended): equal ordered topologies with different
other configuration share the hash; swapping the example's two layers
changes it. -/
theorem C5_witness :
    (CNN.init [28, 28, 1] id (some exampleLayers) none "a" [] true).hash =
      (CNN.init [] (fun t => t) (some exampleLayers) (some "sgd") "b" ["x"] false).hash ∧
    generate_hash exampleLayers ≠
      generate_hash [Layer.pool { pooling_type := "max" },
        Layer.skip { feature_size1 := 32, feature_size2 := 64 }] := by
  have h := C5_hash_determined_by_topology
  exact ⟨h.1 [28, 28, 1] [] id (fun t => t) exampleLayers none (some "sgd")
      "a" "b" [] ["x"] true false,
    h.2 exampleLayers _ (by decide) (by decide) (List.Perm.swap _ _ _) (by decide)⟩

/-- C6: compilation is idempotent: on an instance with a cached model,
`generate` returns the instance, the counter, and the cached graph object
unchanged (no rebuild); and whatever triple a successful `generate`
returns, calling `generate` again on the returned instance and counter
returns that very triple. -/
theorem C6_generate_idempotent (c : CNN) (g : Nat) :
    (∀ m, c.model = some m → c.generate g = some (c, g, m)) ∧
    (∀ c2 g2 m2, c.generate g = some (c2, g2, m2) →
      c2.generate g2 = some (c2, g2, m2)) := by
  constructor
  · intro m hm
    simp [CNN.generate, hm]
  · intro c2 g2 m2 h
    cases hm : c.model with
    | some m =>
      rw [show c.generate g = some (c, g, m) by simp [CNN.generate, hm]] at h
      simp only [Option.some.injEq, Prod.mk.injEq] at h
      obtain ⟨rfl, rfl, rfl⟩ := h
      simp [CNN.generate, hm]
    | none =>
      simp only [CNN.generate, hm] at h
      cases hr : renderLayers c.layers 1 [Op.input c.input_shape] with
      | none => rw [hr] at h; simp at h
      | some gt =>
        obtain ⟨gmid, outs⟩ := gt
        rw [hr] at h
        simp only [Option.some.injEq, Prod.mk.injEq] at h
        obtain ⟨rfl, rfl, rfl⟩ := h
        simp [CNN.generate]

/-- Witness for C6 at a compiled example instance. -/
theorem C6_witness :
    exampleCompiledCNN.generate 7 = some (exampleCompiledCNN, 7, exampleModel) :=
  (C6_generate_idempotent exampleCompiledCNN 7).1 exampleModel rfl

/-- C7: the group counter across a compilation pass: on an uncompiled
instance the pass is independent of the incoming counter value (the
counter is reset to 1, and the rendering fold is started at 1), and every
completed pass hands back counter value 1; starting from the initial value
1, the returned value is 1 on the cached path too, so a caller beginning
at the initial value always observes the initial value afterwards. -/
theorem C7_group_counter (c : CNN) (g : Nat) :
    (c.model = none → c.generate g = c.generate 1) ∧
    (c.model = none → ∀ c2 g2 m, c.generate g = some (c2, g2, m) →
      g2 = 1 ∧ ∃ gmid outs,
        renderLayers c.layers 1 [Op.input c.input_shape] = some (gmid, outs) ∧
        m.ops = c.output_function outs) ∧
    (∀ c2 g2 m, c.generate 1 = some (c2, g2, m) → g2 = 1) := by
  refine ⟨?_, ?_, ?_⟩
  · intro hm
    simp [CNN.generate, hm]
  · intro hm c2 g2 m h
    simp only [CNN.generate, hm] at h
    cases hr : renderLayers c.layers 1 [Op.input c.input_shape] with
    | none => rw [hr] at h; simp at h
    | some gt =>
      obtain ⟨gmid, outs⟩ := gt
      rw [hr] at h
      simp only [Option.some.injEq, Prod.mk.injEq] at h
      obtain ⟨_, rfl, rfl⟩ := h
      exact ⟨rfl, gmid, outs, rfl, rfl⟩
  · intro c2 g2 m h
    cases hm : c.model with
    | some m2 =>
      rw [show c.generate 1 = some (c, 1, m2) by simp [CNN.generate, hm]] at h
      simp only [Option.some.injEq, Prod.mk.injEq] at h
      exact h.2.1.symm
    | none =>
      simp only [CNN.generate, hm] at h
      cases hr : renderLayers c.layers 1 [Op.input c.input_shape] with
      | none => rw [hr] at h; simp at h
      | some gt =>
        obtain ⟨gmid, outs⟩ := gt
        rw [hr] at h
        simp only [Option.some.injEq, Prod.mk.injEq] at h
        exact h.2.1.symm

/-- Witness for C7 at the uncompiled example instance, started at counter
value 5. -/
theorem C7_witness :
    exampleCNN.generate 5 = exampleCNN.generate 1 ∧
    (exampleCNN.generate 5).map (fun r => r.2.1) = some 1 := by
  have h := C7_group_counter exampleCNN 5
  refine ⟨h.1 rfl, ?_⟩
  obtain ⟨r, hr⟩ : ∃ r, exampleCNN.generate 5 = some r := ⟨_, rfl⟩
  have h2 := h.2.1 rfl r.1 r.2.1 r.2.2 (by rw [hr])
  rw [hr]
  simp [h2.1]

/-- C8 counterexample: `train()` on a never-compiled instance with no
existing checkpoint directory is a silent no-op — no error of any kind is
reported, contradicting the claim that an invalid-state error is
surfaced. -/
theorem C8_counterexample :
    exampleCNN.model = none ∧
    exampleCNN.train (fun _ => false) 64 1 = TrainResult.noop := ⟨rfl, rfl⟩

/-- C8 (amended): on a never-compiled instance, `evaluate()` raises the
attribute error on the absent model before any engine call, and `train()`
raises likewise when the checkpoint-reuse branch is taken (reuse enabled
and directory present); but when that branch is not taken, `train()` is a
silent no-op rather than an error. -/
theorem C8_uncompiled_behavior (c : CNN) (pe : String → Bool) (bs ep : Nat)
    (hm : c.model = none) :
    c.evaluate bs = EvalResult.raisedAttributeError ∧
    ((c.load_if_exist && pe (MODEL_BASE_DIRECTORY ++ "/" ++ c.hash ++ "/")) = true →
      c.train pe bs ep = TrainResult.raisedAttributeError) ∧
    ((c.load_if_exist && pe (MODEL_BASE_DIRECTORY ++ "/" ++ c.hash ++ "/")) = false →
      c.train pe bs ep = TrainResult.noop) := by
  refine ⟨by simp [CNN.evaluate, hm], ?_, ?_⟩ <;> intro hcond <;>
    simp [CNN.train, hcond, hm]

/-- Witness for C8 (amended) at the uncompiled example instance. -/
theorem C8_witness :
    exampleCNN.evaluate 64 = EvalResult.raisedAttributeError ∧
    exampleCNN.train (fun _ => true) 64 1 = TrainResult.raisedAttributeError ∧
    exampleCNN.train (fun _ => false) 64 1 = TrainResult.noop := by
  have h1 := C8_uncompiled_behavior exampleCNN (fun _ => true) 64 1 rfl
  have h2 := C8_uncompiled_behavior exampleCNN (fun _ => false) 64 1 rfl
  exact ⟨h1.1, h1.2.1 rfl, h2.2.2 rfl⟩

/-- C9: for a compiled instance with checkpoint-reuse enabled, directory
presence alone decides: when the checkpoint directory for the identity
hash exists, `train` loads weights from the checkpoint path and never
invokes fit; otherwise it delegates to fit with `validation_split = 0.2`
(an 80/20 train/validation split) and the checkpoint/log callbacks. -/
theorem C9_train_checkpoint_reuse (c : CNN) (pe : String → Bool) (bs ep : Nat)
    (m : Model) (hl : c.load_if_exist = true) (hm : c.model = some m) :
    (pe (MODEL_BASE_DIRECTORY ++ "/" ++ c.hash ++ "/") = true →
      c.train pe bs ep = TrainResult.loadedWeights c.checkpoint_filepath ∧
      ∀ bs2 ep2 vs cb, c.train pe bs ep ≠ TrainResult.fitted bs2 ep2 vs cb) ∧
    (pe (MODEL_BASE_DIRECTORY ++ "/" ++ c.hash ++ "/") = false →
      c.train pe bs ep =
        TrainResult.fitted bs ep (0.2 : ℚ) [c.checkpoint_filepath, c.log_dir]) := by
  constructor
  · intro hd
    have hload : c.train pe bs ep = TrainResult.loadedWeights c.checkpoint_filepath := by
      simp [CNN.train, hl, hd, hm]
    refine ⟨hload, fun bs2 ep2 vs cb hcontra => ?_⟩
    rw [hload] at hcontra
    exact TrainResult.noConfusion hcontra
  · intro hd
    simp [CNN.train, hl, hd, hm]

/-- Witness for C9 at the compiled example instance, with the directory
present and absent. -/
theorem C9_witness :
    exampleCompiledCNN.train (fun _ => true) 64 1 =
      TrainResult.loadedWeights exampleCompiledCNN.checkpoint_filepath ∧
    exampleCompiledCNN.train (fun _ => false) 64 1 =
      TrainResult.fitted 64 1 (0.2 : ℚ)
        [exampleCompiledCNN.checkpoint_filepath, exampleCompiledCNN.log_dir] := by
  have h1 := C9_train_checkpoint_reuse exampleCompiledCNN (fun _ => true) 64 1
    exampleModel rfl rfl
  have h2 := C9_train_checkpoint_reuse exampleCompiledCNN (fun _ => false) 64 1
    exampleModel rfl rfl
  exact ⟨(h1.1 rfl).1, h2.2 rfl⟩

/-- C10: the identity hash and the checkpoint path derived from it are
computed once at construction and never recomputed: `CNN.init` fixes them
from the layers passed in; a successful `generate` returns an instance
with the same hash and checkpoint path; replacing the layers afterwards
leaves hash and checkpoint path at their construction-time values, while
a later `generate` on the updated instance renders the NEW layers — the
checkpoint/log addressing keeps reflecting the topology as of
construction. -/
theorem C10_hash_fixed_at_construction (sh : List Nat) (f : Tensor → Tensor)
    (ls : Option (List Layer)) (opt : Option String) (lo : String)
    (me : List String) (lie : Bool) :
    (CNN.init sh f ls opt lo me lie).hash = generate_hash (ls.getD []) ∧
    (CNN.init sh f ls opt lo me lie).checkpoint_filepath =
      MODEL_BASE_DIRECTORY ++ "/" ++ generate_hash (ls.getD []) ++ "/" ++
        generate_hash (ls.getD []) ∧
    (∀ g c2 g2 m, (CNN.init sh f ls opt lo me lie).generate g = some (c2, g2, m) →
      c2.hash = (CNN.init sh f ls opt lo me lie).hash ∧
      c2.checkpoint_filepath = (CNN.init sh f ls opt lo me lie).checkpoint_filepath) ∧
    (∀ l2, ({ CNN.init sh f ls opt lo me lie with layers := l2 }).hash =
        generate_hash (ls.getD []) ∧
      ({ CNN.init sh f ls opt lo me lie with layers := l2 }).checkpoint_filepath =
        (CNN.init sh f ls opt lo me lie).checkpoint_filepath) ∧
    (∀ l2 g c2 g2 m,
      ({ CNN.init sh f ls opt lo me lie with layers := l2 }).generate g =
        some (c2, g2, m) →
      c2.hash = generate_hash (ls.getD []) ∧
      ∃ gmid outs, renderLayers l2 1 [Op.input sh] = some (gmid, outs) ∧
        m.ops = f outs) := by
  refine ⟨rfl, rfl, ?_, fun l2 => ⟨rfl, rfl⟩, ?_⟩
  · intro g c2 g2 m h
    have hm : (CNN.init sh f ls opt lo me lie).model = none := rfl
    have hsh : (CNN.init sh f ls opt lo me lie).input_shape = sh := rfl
    simp only [CNN.generate, hm, hsh] at h
    cases hr : renderLayers (CNN.init sh f ls opt lo me lie).layers 1 [Op.input sh] with
    | none => rw [hr] at h; simp at h
    | some gt =>
      obtain ⟨gmid, outs⟩ := gt
      rw [hr] at h
      simp only [Option.some.injEq, Prod.mk.injEq] at h
      exact ⟨by rw [← h.1], by rw [← h.1]⟩
  · intro l2 g c2 g2 m h
    have hm : (CNN.init sh f ls opt lo me lie).model = none := rfl
    have hsh : (CNN.init sh f ls opt lo me lie).input_shape = sh := rfl
    simp only [CNN.generate, hm, hsh] at h
    cases hr : renderLayers l2 1 [Op.input sh] with
    | none => rw [hr] at h; simp at h
    | some gt =>
      obtain ⟨gmid, outs⟩ := gt
      rw [hr] at h
      simp only [Option.some.injEq, Prod.mk.injEq] at h
      exact ⟨by rw [← h.1]; rfl, gmid, outs, rfl, by rw [← h.2.2]; rfl⟩

/-- Witness for C10 at the example builder. -/
theorem C10_witness :
    exampleCNN.hash = "32-64-max" ∧
    exampleCNN.checkpoint_filepath = "./checkpoints/32-64-max/32-64-max" ∧
    ({ exampleCNN with layers := [] }).hash = "32-64-max" ∧
    (exampleCNN.generate 3).map (fun r => r.1.hash) = some "32-64-max" := by
  have h := C10_hash_fixed_at_construction [28, 28, 1] id (some exampleLayers) none
    "sparse_categorical_crossentropy" ["accuracy"] true
  have hhash : generate_hash ((some exampleLayers).getD []) = "32-64-max" := by decide
  refine ⟨?_, ?_, ?_, ?_⟩
  · show (CNN.init [28, 28, 1] id (some exampleLayers) none
      "sparse_categorical_crossentropy" ["accuracy"] true).hash = "32-64-max"
    rw [h.1]
    exact hhash
  · show (CNN.init [28, 28, 1] id (some exampleLayers) none
      "sparse_categorical_crossentropy" ["accuracy"] true).checkpoint_filepath =
      "./checkpoints/32-64-max/32-64-max"
    rw [h.2.1, hhash]
    rfl
  · show ({ CNN.init [28, 28, 1] id (some exampleLayers) none
      "sparse_categorical_crossentropy" ["accuracy"] true with layers := [] }).hash =
      "32-64-max"
    rw [(h.2.2.2.1 []).1]
    exact hhash
  · obtain ⟨r, hr⟩ : ∃ r, exampleCNN.generate 3 = some r := ⟨_, rfl⟩
    have h3 := h.2.2.1 3 r.1 r.2.1 r.2.2 (hr.trans rfl)
    rw [hr]
    simp only [Option.map_some']
    rw [show r.1.hash = (CNN.init [28, 28, 1] id (some exampleLayers) none
      "sparse_categorical_crossentropy" ["accuracy"] true).hash from h3.1]
    rw [h.1, hhash]

end AutoCNN
